import Mathlib

/-
  Verification development for the Newtonian-Gravity simulator
  (newtoniangravity.py).  The physics core is shallowly embedded:
  3-component float vectors become `Vec3` over the reals, the
  `gravpoint` class becomes the `Gravpoint` structure, and the
  module-level functions `distance`, `normalize`, `merge_detect`,
  `gravity` and `updateall` become Lean functions of the same
  structure.  Python exceptions (IndexError from list indexing and
  item assignment, ValueError from `list.remove`) are modelled with
  `Except`, carrying the list state at raise time, because the
  source catches IndexError mid-mutation.
-/

namespace NG

noncomputable section

open Classical

/-- A 3-component vector of reals, modelling the numpy float arrays of
length 3 used by the source. -/
structure Vec3 where
  x : ℝ
  y : ℝ
  z : ℝ

/-- Componentwise vector addition (numpy `a + b`). -/
def Vec3.add (a b : Vec3) : Vec3 := ⟨a.x + b.x, a.y + b.y, a.z + b.z⟩

/-- Componentwise vector subtraction (numpy `a - b`). -/
def Vec3.sub (a b : Vec3) : Vec3 := ⟨a.x - b.x, a.y - b.y, a.z - b.z⟩

/-- Vector times scalar (numpy `a * c`). -/
def Vec3.mulS (a : Vec3) (c : ℝ) : Vec3 := ⟨a.x * c, a.y * c, a.z * c⟩

/-- Vector divided by scalar (numpy `a / c`). -/
def Vec3.divS (a : Vec3) (c : ℝ) : Vec3 := ⟨a.x / c, a.y / c, a.z / c⟩

/-- The zero vector (`np.array([0,0,0])` and the literal `[0,0,0]`). -/
def zeroVec : Vec3 := ⟨0, 0, 0⟩

/-- numpy truthiness test `v.all()`: true iff every component is nonzero. -/
def allNonzero (v : Vec3) : Prop := v.x ≠ 0 ∧ v.y ≠ 0 ∧ v.z ≠ 0

/-- `distance(point1, point2)`: Euclidean distance, the square root of the
sum of the squared componentwise differences. -/
def distance (p q : Vec3) : ℝ :=
  Real.sqrt ((p.x - q.x) ^ 2 + (p.y - q.y) ^ 2 + (p.z - q.z) ^ 2)

/-- `normalize(point)`: the source first tests `point.all() == 0`, which
is true exactly when SOME component of `point` is zero (numpy `.all()`
returns whether all components are nonzero, and that boolean is compared
with `0`); in that case the vector is returned unchanged.  Otherwise every
component is divided by `distance(point, [0,0,0])`.  The source mutates
its argument; we return the resulting vector. -/
def normalize (v : Vec3) : Vec3 :=
  if allNonzero v then v.divS (distance v zeroVec) else v

/-- RGB colour triple. -/
def Color : Type := ℝ × ℝ × ℝ

/-- The default colour `(255,255,255)` of `gravpoint.__init__`. -/
def whiteCol : Color := (255, 255, 255)

/-- The `gravpoint` class: position, mass, velocity, the stored radius,
the immovability flag and the colour. -/
structure Gravpoint where
  pos : Vec3
  mass : ℝ
  vel : Vec3
  imov : Bool
  color : Color
  radius : ℤ

/-- The radius computation of `gravpoint.__init__`:
`int((mass)**(1/3))`.  For the positive masses of this program, Python
`int` truncation coincides with the floor of the real cube root. -/
def radiusOf (mass : ℝ) : ℤ := ⌊mass ^ ((1 : ℝ) / 3)⌋

/-- `gravpoint.__init__`: stores the fields and derives the radius from
the mass. -/
def mkGravpoint (pos : Vec3) (mass : ℝ) (vel : Vec3) (imov : Bool)
    (color : Color) : Gravpoint :=
  { pos := pos, mass := mass, vel := vel, imov := imov, color := color,
    radius := radiusOf mass }

/-- `gravpoint.move`: adds the velocity to the position, doing nothing if
the point is immovable. -/
def move (p : Gravpoint) : Gravpoint :=
  if p.imov then p else { p with pos := p.pos.add p.vel }

/-- `gravpoint.update`: adds `force / mass` to the velocity.  The source
applies this unconditionally: the immovability flag is NOT consulted
here. -/
def update (p : Gravpoint) (force : Vec3) : Gravpoint :=
  { p with vel := p.vel.add (force.divS p.mass) }

/-- `gravpoint.__add__`: combines two points.  The merged position is
computed as `self.pos + other.pos/2` (the source divides only the second
operand by two) and is then overridden when either operand is immovable;
mass is the sum, velocity the momentum-weighted average, immovability the
disjunction, colour the componentwise average, and the radius is derived
afresh by the `gravpoint` constructor. -/
def gpadd (a b : Gravpoint) : Gravpoint :=
  let newmass := a.mass + b.mass
  let selfin := a.vel.mulS a.mass
  let otherin := b.vel.mulS b.mass
  let combmass := a.mass + b.mass
  let newvel := (selfin.add otherin).divS combmass
  let newimov := a.imov || b.imov
  let newpos0 := a.pos.add (b.pos.divS 2)
  let newpos := if newimov then (if a.imov then a.pos else b.pos) else newpos0
  let newcol : Color := ((a.color.1 + b.color.1) / 2,
                         (a.color.2.1 + b.color.2.1) / 2,
                         (a.color.2.2 + b.color.2.2) / 2)
  mkGravpoint newpos newmass newvel newimov newcol

/-- `gravpoint.__eq__`: the source compares `self.pos.all() ==
other.pos.all()` and `self.vel.all() == other.vel.all()` — equality of
the numpy truthiness booleans, not of the arrays — together with exact
equality of the masses. -/
def gpEq (a b : Gravpoint) : Prop :=
  (allNonzero a.pos ↔ allNonzero b.pos) ∧
  (allNonzero a.vel ↔ allNonzero b.vel) ∧
  a.mass = b.mass

/-- The gravitational constant `GRAVEC = (6.67 * (10**-11)) * 1000`. -/
def GRAVEC : ℝ := (6.67 * (10 : ℝ) ^ (-11 : ℤ)) * 1000

/-- The per-pair force magnitude of the `gravity` loop body: `force` is
first set to `GRAVEC * (mainpoint.mass*1000 * otherpoint.mass*1000)`;
when the distance is zero the magnitude becomes `0`; otherwise `force`
is divided by the squared distance, and when the distance is at most 5
the natural logarithm of that quotient is taken. -/
def pairMagnitude (p q : Gravpoint) : ℝ :=
  let force := GRAVEC * (p.mass * 1000 * q.mass * 1000)
  let dist := distance p.pos q.pos
  if dist = 0 then 0
  else if dist ≤ 5 then Real.log (force / dist ^ 2)
  else force / dist ^ 2

/-- The per-pair force vector of the `gravity` loop body: the difference
`otherpoint.pos - mainpoint.pos` is passed through `normalize` and then
scaled by the magnitude. -/
def gravContrib (p q : Gravpoint) : Vec3 :=
  (normalize (q.pos.sub p.pos)).mulS (pairMagnitude p q)

/-- The net force on the body at index `i` (with value `gi`): the sum,
starting from `np.array([0,0,0])` and in list order, of the pair
contributions from every other index. -/
def gravityForce (l : List Gravpoint) (i : ℕ) (gi : Gravpoint) : Vec3 :=
  (((l.enum.filter (fun q => q.1 ≠ i)).map
      (fun q => gravContrib gi q.2)).foldl Vec3.add zeroVec)

/-- The `gravity` function: per-body net forces are all computed from the
current list, and then each body at index `i` receives `update` with its
force.  The source precomputes the full force list before the update
loop, so mapping `update` over the indexed list is the same pass. -/
def gravityApply (l : List Gravpoint) : List Gravpoint :=
  l.enum.map (fun q => update q.2 (gravityForce l q.1 q.2))

/-- Python exceptions that the merge pass can raise: IndexError (list
index or item assignment out of range) and ValueError (`list.remove` of
an absent item). -/
inductive PyErr where
  | indexError
  | valueError

/-- Exception-aware outcome of a mutating step: either the new list, or
an exception together with the list state at the moment it was raised
(the source catches IndexError after mutations may have happened). -/
abbrev MergeM := Except (PyErr × List Gravpoint) (List Gravpoint)

/-- `list.remove(x)`: removes the first element equal to `x` under
`gravpoint.__eq__`, raising ValueError when no element matches. -/
def pyRemove (l : List Gravpoint) (x : Gravpoint) : MergeM :=
  if l.any (fun e => decide (gpEq e x)) then
    .ok (l.eraseP (fun e => decide (gpEq e x)))
  else .error (.valueError, l)

/-- The `try` body of `merge_detect` for one pair `(i, j)`: reads
`gpoints[i]` and `gpoints[j]` (IndexError when out of range), compares
the distance with the sum of the radii, and on a hit builds the merged
point, removes the first element equal to the later-index operand and
writes the merged point into the slot of the other index (IndexError
when that slot no longer exists).  The `i > j` branch mirrors the dead
branch of the source. -/
def tryBody (l : List Gravpoint) (i j : ℕ) : MergeM :=
  match l[i]? with
  | none => .error (.indexError, l)
  | some gi =>
    match l[j]? with
    | none => .error (.indexError, l)
    | some gj =>
      let rad : ℤ := gi.radius + gj.radius
      if distance gi.pos gj.pos < (rad : ℝ) then
        let merged := gpadd gi gj
        if i > j then
          match pyRemove l gi with
          | .error e => .error e
          | .ok l2 =>
            if j < l2.length then .ok (l2.set j merged)
            else .error (.indexError, l2)
        else
          match pyRemove l gj with
          | .error e => .error e
          | .ok l2 =>
            if i < l2.length then .ok (l2.set i merged)
            else .error (.indexError, l2)
      else .ok l

/-- The inner `for j` loop of `merge_detect`: iterates `fuel` values of
`j` starting at `j0`; an IndexError from the body is caught and the loop
continues with the list as the exception left it, while a ValueError
would propagate. -/
def innerLoop (i : ℕ) : List Gravpoint → ℕ → ℕ → MergeM
  | l, _, 0 => .ok l
  | l, j, fuel + 1 =>
    match tryBody l i j with
    | .ok l2 => innerLoop i l2 (j + 1) fuel
    | .error (.indexError, l2) => innerLoop i l2 (j + 1) fuel
    | .error (.valueError, l2) => .error (.valueError, l2)

/-- The outer `for i` loop of `merge_detect`: the iteration count was
fixed from the length at entry; each inner loop runs `j` from `i+1` up
to the length of the list as it stands when that inner loop starts. -/
def outerLoop : List Gravpoint → ℕ → ℕ → MergeM
  | l, _, 0 => .ok l
  | l, i, fuel + 1 =>
    match innerLoop i l (i + 1) (l.length - (i + 1)) with
    | .ok l2 => outerLoop l2 (i + 1) fuel
    | .error e => .error e

/-- `merge_detect(gpoints)`: the nested pair scan with in-place merging. -/
def mergeDetect (l : List Gravpoint) : MergeM :=
  outerLoop l 0 l.length

/-- `updateall(gpoints)`: one tick — the merge pass, then the gravity
pass on the surviving list, then `move` on every body. -/
def updateall (l : List Gravpoint) : MergeM :=
  match mergeDetect l with
  | .error e => .error e
  | .ok l2 => .ok ((gravityApply l2).map move)

/-- Sum of the masses of all bodies in the collection. -/
def totalMass (l : List Gravpoint) : ℝ := (l.map Gravpoint.mass).sum

/-- The radius invariant: the stored radius is the one derived from the
current mass, exactly as `gravpoint.__init__` computes it. -/
def radiusInv (p : Gravpoint) : Prop := p.radius = radiusOf p.mass

/-- `centerp`: the immovable mass-1500 body at the origin. -/
def centerp : Gravpoint :=
  mkGravpoint ⟨0, 0, 0⟩ 1500 ⟨0, 0, 0⟩ true whiteCol

/-- The five bodies appended when `"square"` is among the arguments. -/
def squareBodies : List Gravpoint :=
  [ mkGravpoint ⟨0, -50, 0⟩ 100 ⟨0, 0, 0⟩ false whiteCol,
    mkGravpoint ⟨0, 50, 0⟩ 100 ⟨0, 0, 0⟩ false whiteCol,
    mkGravpoint ⟨50, 0, 0⟩ 100 ⟨0, 0, 0⟩ false whiteCol,
    mkGravpoint ⟨-50, 0, 0⟩ 100 ⟨0, 0, 0⟩ false whiteCol,
    mkGravpoint ⟨0, 0, 0⟩ 200 ⟨0, 0, 1⟩ false whiteCol ]

/-- The bodies appended when `"circle"` is among the arguments: the
centre body followed by one body per multiple of ten from 0 to 350,
with trigonometric velocities and colours (the source feeds the raw
numbers to `sin` and `cos`, which read them as radians). -/
def circleBodies : List Gravpoint :=
  centerp ::
    (List.range 36).map (fun k =>
      let i : ℝ := 10 * k
      mkGravpoint ⟨Real.cos i * 100, Real.sin i * 100, 0⟩ 50
        ⟨Real.cos (i + 60) * 10, Real.sin (i + 60) * 10, 0⟩ false
        (|Real.sin i| * 255, |Real.cos i| * 255, |Real.sin (i + 60)| * 255))

/-- The six bodies appended when `"line"` is among the arguments. -/
def lineBodies : List Gravpoint :=
  [ mkGravpoint ⟨0, -50, 0⟩ 100 ⟨0, 0, 0⟩ false whiteCol,
    mkGravpoint ⟨0, 50, 0⟩ 100 ⟨0, 0, 0⟩ false whiteCol,
    mkGravpoint ⟨0, 100, 0⟩ 100 ⟨0, 0, 0⟩ false whiteCol,
    mkGravpoint ⟨0, -100, 0⟩ 100 ⟨0, 0, 0⟩ false whiteCol,
    mkGravpoint ⟨0, 200, 0⟩ 100 ⟨0, 0, 0⟩ false whiteCol,
    mkGravpoint ⟨0, -200, 0⟩ 100 ⟨0, 0, 0⟩ false whiteCol ]

/-- The two bodies appended when `"orbit"` is among the arguments. -/
def orbitBodies : List Gravpoint :=
  [ mkGravpoint ⟨0, 0, 0⟩ 2000 ⟨-1, 0, 0⟩ false whiteCol,
    mkGravpoint ⟨0, 100, 0⟩ 200 ⟨10, 0, 0⟩ false whiteCol ]

/-- The module-level body list: it starts as the empty list and each
recognized name among the arguments appends its preset, in source
order. -/
def moduleGpoints (args : List String) : List Gravpoint :=
  ((([] ++ (if "square" ∈ args then squareBodies else [])) ++
     (if "circle" ∈ args then circleBodies else [])) ++
     (if "line" ∈ args then lineBodies else [])) ++
     (if "orbit" ∈ args then orbitBodies else [])

/-- Whether the name `gpoints` is bound after the module body has run,
together with its value when bound: the assignment `gpoints = []` at
line 298 executes unconditionally before any scenario test, so the name
is bound for every argument list. -/
def moduleState (args : List String) : Option (List Gravpoint) :=
  some (moduleGpoints args)

/-- Outcome of the start of `main`: the NameError diagnostic branch
(print and exit), or entry into the render loop over the bound list. -/
inductive MainOutcome where
  | diagnosticExit
  | runsWith (bodies : List Gravpoint)

/-- The guard at the top of `main`: evaluating the name `gpoints` inside
`try` and taking the diagnostic branch only on NameError, that is, only
when the name is unbound. -/
def mainStart (args : List String) : MainOutcome :=
  match moduleState args with
  | none => .diagnosticExit
  | some l => .runsWith l

/-
  Specification-side definitions, written from the words of the spec,
  to be compared with the definitions above drawn from the source.
-/

/-- Modelled from the spec: the gravitational constant, reference value
`6.67e-11 * 1000`. -/
def specG : ℝ := 6.67e-11 * 1000

/-- Modelled from the spec: the force-contribution magnitude as the spec
states it — `raw = G * (mass_i*1000) * (mass_j*1000)`; `0` when the
distance is zero; otherwise `raw / d^2`, replaced by its natural
logarithm when additionally `d <= 5`. -/
def specContribMag (mi mj d : ℝ) : ℝ :=
  let raw := specG * (mi * 1000) * (mj * 1000)
  if d = 0 then 0
  else if d ≤ 5 then Real.log (raw / d ^ 2)
  else raw / d ^ 2

/-- Modelled from the spec: the midpoint of two positions,
`(A.position + B.position) / 2`. -/
def midpoint3 (a b : Vec3) : Vec3 := (a.add b).divS 2

/-- One integrator step on a single body: the velocity update from the
force, then the position update from the velocity. -/
def integratorStep (p : Gravpoint) (f : Vec3) : Gravpoint := move (update p f)

/-
  Concrete bodies used in counterexamples and witnesses.
-/

/-- A movable unit-mass body at `(2,0,0)` at rest. -/
def c3A : Gravpoint := mkGravpoint ⟨2, 0, 0⟩ 1 zeroVec false whiteCol

/-- A movable unit-mass body at the origin at rest. -/
def c3B : Gravpoint := mkGravpoint ⟨0, 0, 0⟩ 1 zeroVec false whiteCol

/-- An immovable unit-mass body at rest at the origin. -/
def c5Imm : Gravpoint := mkGravpoint ⟨0, 0, 0⟩ 1 ⟨0, 0, 0⟩ true whiteCol

/-- An immovable body at `(1,2,3)`. -/
def c7Imm : Gravpoint := mkGravpoint ⟨1, 2, 3⟩ 10 ⟨0, 0, 0⟩ true whiteCol

/-- A movable body at `(4,5,6)`. -/
def c7Mov : Gravpoint := mkGravpoint ⟨4, 5, 6⟩ 20 ⟨0, 0, 0⟩ false whiteCol

lemma GRAVEC_eq_specG : GRAVEC = specG := by
  unfold GRAVEC specG
  norm_num

/-- Claim C1: for every pair of bodies, the force-contribution magnitude
computed by the force pass (`pairMagnitude`, the scalar applied inside
`gravContrib` and hence `gravityForce`) is exactly the piecewise
specification function: `0` at distance zero, otherwise `raw / d^2` with
`raw = G * (m_i*1000) * (m_j*1000)` and `G = 6.67e-11 * 1000`, replaced
by its natural logarithm when `d <= 5`. -/
theorem C1_force_pass_magnitude (p q : Gravpoint) :
    pairMagnitude p q = specContribMag p.mass q.mass (distance p.pos q.pos) := by
  have hg : GRAVEC * (p.mass * 1000 * q.mass * 1000)
      = specG * (p.mass * 1000) * (q.mass * 1000) := by
    rw [GRAVEC_eq_specG]; ring
  simp only [pairMagnitude, specContribMag]
  rw [hg]

/-- Claim C2: merging two bodies of positive mass yields the summed mass
and the momentum-weighted average velocity, hence conserves both total
mass and total momentum. -/
theorem C2_merge_mass_momentum (a b : Gravpoint)
    (ha : 0 < a.mass) (hb : 0 < b.mass) :
    (gpadd a b).mass = a.mass + b.mass ∧
    (gpadd a b).vel
      = ((a.vel.mulS a.mass).add (b.vel.mulS b.mass)).divS (a.mass + b.mass) ∧
    ((gpadd a b).vel).mulS ((gpadd a b).mass)
      = (a.vel.mulS a.mass).add (b.vel.mulS b.mass) := by
  have hne : a.mass + b.mass ≠ 0 := ne_of_gt (by linarith)
  refine ⟨rfl, rfl, ?_⟩
  simp only [gpadd, mkGravpoint, Vec3.mulS, Vec3.divS, Vec3.add, Vec3.mk.injEq]
  refine ⟨?_, ?_, ?_⟩ <;> field_simp

/-- Witness for C2 at concrete bodies. -/
theorem C2_merge_mass_momentum_witness :
    (0 : ℝ) < c3A.mass ∧ (0 : ℝ) < c3B.mass ∧
    (gpadd c3A c3B).mass = c3A.mass + c3B.mass ∧
    ((gpadd c3A c3B).vel).mulS ((gpadd c3A c3B).mass)
      = (c3A.vel.mulS c3A.mass).add (c3B.vel.mulS c3B.mass) := by
  have h1 : (0 : ℝ) < c3A.mass := by norm_num [c3A, mkGravpoint]
  have h2 : (0 : ℝ) < c3B.mass := by norm_num [c3B, mkGravpoint]
  have h := C2_merge_mass_momentum c3A c3B h1 h2
  exact ⟨h1, h2, h.1, h.2.2⟩

/-- Claim C3 fails: for the two movable bodies `c3A` (at `(2,0,0)`) and
`c3B` (at the origin) the merged position computed by the source is
`self.pos + other.pos/2 = (2,0,0)`, not the midpoint `(1,0,0)`. -/
theorem C3_merge_position_bug :
    (gpadd c3A c3B).pos = ⟨2, 0, 0⟩ ∧
    midpoint3 c3A.pos c3B.pos = ⟨1, 0, 0⟩ ∧
    (gpadd c3A c3B).pos ≠ midpoint3 c3A.pos c3B.pos := by
  have h1 : (gpadd c3A c3B).pos = ⟨2, 0, 0⟩ := by
    simp only [gpadd, mkGravpoint, c3A, c3B, Vec3.add, Vec3.divS, zeroVec,
      Bool.or_self, if_false, Bool.false_eq_true, Vec3.mk.injEq]
    norm_num
  have h2 : midpoint3 c3A.pos c3B.pos = ⟨1, 0, 0⟩ := by
    simp only [midpoint3, c3A, c3B, mkGravpoint, Vec3.add, Vec3.divS,
      Vec3.mk.injEq]
    norm_num
  refine ⟨h1, h2, ?_⟩
  rw [h1, h2]
  intro h
  have := congrArg Vec3.x h
  norm_num at this

/-- Claim C4 fails: `(3,0,4)` is a nonzero vector, yet `normalize`
returns it unchanged (the `point.all() == 0` guard fires whenever some
component is zero), so the result has Euclidean length `5`, not `1`. -/
theorem C4_normalize_bug :
    (⟨3, 0, 4⟩ : Vec3) ≠ zeroVec ∧
    normalize ⟨3, 0, 4⟩ = (⟨3, 0, 4⟩ : Vec3) ∧
    distance (normalize ⟨3, 0, 4⟩) zeroVec = 5 := by
  have hnz : (⟨3, 0, 4⟩ : Vec3) ≠ zeroVec := by
    intro h
    have := congrArg Vec3.x h
    norm_num [zeroVec] at this
  have hguard : ¬ allNonzero (⟨3, 0, 4⟩ : Vec3) := by
    simp [allNonzero]
  have hnorm : normalize ⟨3, 0, 4⟩ = (⟨3, 0, 4⟩ : Vec3) := by
    simp [normalize, hguard]
  refine ⟨hnz, hnorm, ?_⟩
  rw [hnorm]
  show Real.sqrt ((3 - 0) ^ 2 + (0 - 0) ^ 2 + (4 - 0) ^ 2) = 5
  rw [show ((3 : ℝ) - 0) ^ 2 + (0 - 0) ^ 2 + (4 - 0) ^ 2 = 5 ^ 2 by norm_num]
  exact Real.sqrt_sq (by norm_num)

/-- Claim C5 fails: the velocity update is applied regardless of the
immovable flag, so one integrator step with force `(1,0,0)` changes the
velocity of the immovable body `c5Imm`. -/
theorem C5_immovable_counterexample :
    (integratorStep c5Imm ⟨1, 0, 0⟩).vel ≠ c5Imm.vel := by
  intro h
  have := congrArg Vec3.x h
  simp [integratorStep, move, update, c5Imm, mkGravpoint, Vec3.add,
    Vec3.divS] at this

/-- Claim C5 amended: for an immovable body the position is unchanged by
any sequence of integrator steps and any forces (the `move` pass checks
the flag), but the velocity update `vel += force/mass` is applied even
when immovable, so only the position is preserved. -/
theorem C5_immovable_position_only (p : Gravpoint) (h : p.imov = true)
    (fs : List Vec3) :
    (fs.foldl integratorStep p).pos = p.pos ∧
    (fs.foldl integratorStep p).imov = true := by
  induction fs generalizing p with
  | nil => exact ⟨rfl, h⟩
  | cons f fs ih =>
    have hstep : (integratorStep p f).pos = p.pos ∧
        (integratorStep p f).imov = true := by
      simp [integratorStep, move, update, h]
    have := ih (integratorStep p f) hstep.2
    exact ⟨by rw [List.foldl_cons, this.1, hstep.1], by
      rw [List.foldl_cons, this.2]⟩

/-- Witness for the amended C5 at a concrete immovable body and a
concrete force list. -/
theorem C5_immovable_position_only_witness :
    c5Imm.imov = true ∧
    (([⟨1, 0, 0⟩, ⟨2, 3, 4⟩] : List Vec3).foldl integratorStep c5Imm).pos
      = c5Imm.pos := by
  exact ⟨rfl, (C5_immovable_position_only c5Imm rfl _).1⟩

/-- Claim C7: the merged immovability flag is the disjunction of the two
flags, and the merged position is the position of the immovable operand
(the first operand winning when both are immovable). -/
theorem C7_merge_immovable (a b : Gravpoint) :
    (gpadd a b).imov = (a.imov || b.imov) ∧
    (a.imov = true → (gpadd a b).pos = a.pos) ∧
    (a.imov = false → b.imov = true → (gpadd a b).pos = b.pos) := by
  cases ha : a.imov <;> cases hb : b.imov <;>
    simp [gpadd, mkGravpoint, ha, hb]

/-- Witness for C7: an immovable body merged with a movable one, in both
argument orders. -/
theorem C7_merge_immovable_witness :
    (gpadd c7Imm c7Mov).imov = true ∧
    (gpadd c7Imm c7Mov).pos = c7Imm.pos ∧
    (gpadd c7Mov c7Imm).pos = c7Imm.pos := by
  refine ⟨?_, (C7_merge_immovable c7Imm c7Mov).2.1 rfl,
    (C7_merge_immovable c7Mov c7Imm).2.2 rfl rfl⟩
  rw [(C7_merge_immovable c7Imm c7Mov).1]
  rfl

/-- Claim C6 fails: the assignment `gpoints = []` at line 298 runs
unconditionally before the scenario tests, so the name is always bound,
the NameError guard in `main` is dead, and an unrecognized scenario
makes the program enter the render loop with an empty body list instead
of printing a diagnostic and exiting with a non-zero status (the guard,
even if reached, calls `sys.exit()` which exits with status zero). -/
theorem C6_unrecognized_scenario__bug :
    mainStart ["foo"] = MainOutcome.runsWith [] ∧
    ∀ args : List String, mainStart args ≠ MainOutcome.diagnosticExit := by
  constructor
  · simp [mainStart, moduleState, moduleGpoints]
  · intro args h
    simp [mainStart, moduleState] at h

/-
  Structural lemmas about the body operations, shared by the safety and
  invariant claims.
-/

@[simp] lemma mkGravpoint_mass (p : Vec3) (m : ℝ) (v : Vec3) (b : Bool)
    (c : Color) : (mkGravpoint p m v b c).mass = m := rfl

@[simp] lemma mkGravpoint_radius (p : Vec3) (m : ℝ) (v : Vec3) (b : Bool)
    (c : Color) : (mkGravpoint p m v b c).radius = radiusOf m := rfl

@[simp] lemma mkGravpoint_pos (p : Vec3) (m : ℝ) (v : Vec3) (b : Bool)
    (c : Color) : (mkGravpoint p m v b c).pos = p := rfl

@[simp] lemma mkGravpoint_vel (p : Vec3) (m : ℝ) (v : Vec3) (b : Bool)
    (c : Color) : (mkGravpoint p m v b c).vel = v := rfl

@[simp] lemma mkGravpoint_imov (p : Vec3) (m : ℝ) (v : Vec3) (b : Bool)
    (c : Color) : (mkGravpoint p m v b c).imov = b := rfl

@[simp] lemma update_mass (p : Gravpoint) (f : Vec3) :
    (update p f).mass = p.mass := rfl

@[simp] lemma update_radius (p : Gravpoint) (f : Vec3) :
    (update p f).radius = p.radius := rfl

@[simp] lemma move_mass (p : Gravpoint) : (move p).mass = p.mass := by
  unfold move; split <;> rfl

@[simp] lemma move_radius (p : Gravpoint) : (move p).radius = p.radius := by
  unfold move; split <;> rfl

@[simp] lemma gpadd_mass (a b : Gravpoint) :
    (gpadd a b).mass = a.mass + b.mass := rfl

lemma radiusInv_mk (p : Vec3) (m : ℝ) (v : Vec3) (b : Bool) (c : Color) :
    radiusInv (mkGravpoint p m v b c) := rfl

lemma radiusInv_gpadd (a b : Gravpoint) : radiusInv (gpadd a b) := rfl

lemma radiusInv_update (p : Gravpoint) (f : Vec3) (h : radiusInv p) :
    radiusInv (update p f) := h

lemma radiusInv_move (p : Gravpoint) (h : radiusInv p) :
    radiusInv (move p) := by
  unfold radiusInv at h ⊢
  rw [move_radius, move_mass]
  exact h

lemma gpEq_refl (a : Gravpoint) : gpEq a a := ⟨Iff.rfl, Iff.rfl, rfl⟩

/-- `list.remove` succeeds whenever the sought item is itself a member
of the list, because `gravpoint.__eq__` is reflexive. -/
lemma pyRemove_ok_of_mem {l : List Gravpoint} {x : Gravpoint} (hx : x ∈ l) :
    pyRemove l x = .ok (l.eraseP (fun e => decide (gpEq e x))) := by
  unfold pyRemove
  rw [if_pos]
  rw [List.any_eq_true]
  exact ⟨x, hx, decide_eq_true (gpEq_refl x)⟩

/-- Every outcome of the `try` body is either a normal result or a caught
IndexError; the list it leaves behind is never longer than the input,
and the radius invariant of its members is preserved. -/
lemma tryBody_total (l : List Gravpoint) (i j : ℕ) :
    ∃ l2, (tryBody l i j = .ok l2 ∨ tryBody l i j = .error (.indexError, l2)) ∧
      l2.length ≤ l.length ∧
      ((∀ p ∈ l, radiusInv p) → ∀ p ∈ l2, radiusInv p) := by
  unfold tryBody
  match hgi : l[i]? with
  | none => exact ⟨l, Or.inr rfl, le_refl _, fun h => h⟩
  | some gi =>
    match hgj : l[j]? with
    | none => exact ⟨l, Or.inr rfl, le_refl _, fun h => h⟩
    | some gj =>
      simp only
      split
      case isFalse => exact ⟨l, Or.inl rfl, le_refl _, fun h => h⟩
      case isTrue hdist =>
        have hmem_i : gi ∈ l := List.getElem?_mem hgi
        have hmem_j : gj ∈ l := List.getElem?_mem hgj
        split
        case isTrue hij =>
          simp only [pyRemove_ok_of_mem hmem_i]
          set l2 := l.eraseP (fun e => decide (gpEq e gi)) with hl2
          have hlen : l2.length = l.length - 1 :=
            List.length_eraseP_of_mem hmem_i (decide_eq_true (gpEq_refl gi))
          have hsub : ∀ p ∈ l2, p ∈ l := fun p hp => List.eraseP_subset l hp
          have hinv2 : (∀ p ∈ l, radiusInv p) → ∀ p ∈ l2.set j (gpadd gi gj),
              radiusInv p := by
            intro h p hp
            rcases List.mem_or_eq_of_mem_set hp with hmem | heq
            · exact h p (hsub p hmem)
            · rw [heq]; exact radiusInv_gpadd gi gj
          split
          case isTrue hj2 =>
            refine ⟨l2.set j (gpadd gi gj), Or.inl rfl, ?_, hinv2⟩
            rw [List.length_set, hlen]; omega
          case isFalse hj2 =>
            exact ⟨l2, Or.inr rfl, by rw [hlen]; omega,
              fun h p hp => h p (hsub p hp)⟩
        case isFalse hij =>
          simp only [pyRemove_ok_of_mem hmem_j]
          set l2 := l.eraseP (fun e => decide (gpEq e gj)) with hl2
          have hlen : l2.length = l.length - 1 :=
            List.length_eraseP_of_mem hmem_j (decide_eq_true (gpEq_refl gj))
          have hsub : ∀ p ∈ l2, p ∈ l := fun p hp => List.eraseP_subset l hp
          have hinv2 : (∀ p ∈ l, radiusInv p) → ∀ p ∈ l2.set i (gpadd gi gj),
              radiusInv p := by
            intro h p hp
            rcases List.mem_or_eq_of_mem_set hp with hmem | heq
            · exact h p (hsub p hmem)
            · rw [heq]; exact radiusInv_gpadd gi gj
          split
          case isTrue hi2 =>
            refine ⟨l2.set i (gpadd gi gj), Or.inl rfl, ?_, hinv2⟩
            rw [List.length_set, hlen]; omega
          case isFalse hi2 =>
            exact ⟨l2, Or.inr rfl, by rw [hlen]; omega,
              fun h p hp => h p (hsub p hp)⟩

/-- The inner loop always completes normally (IndexError is caught,
ValueError never arises), never grows the list, and preserves the radius
invariant. -/
lemma innerLoop_total (fuel : ℕ) : ∀ (i : ℕ) (l : List Gravpoint) (j : ℕ),
    ∃ l2, innerLoop i l j fuel = .ok l2 ∧ l2.length ≤ l.length ∧
      ((∀ p ∈ l, radiusInv p) → ∀ p ∈ l2, radiusInv p) := by
  induction fuel with
  | zero => exact fun i l j => ⟨l, rfl, le_refl _, fun h => h⟩
  | succ n ih =>
    intro i l j
    obtain ⟨l2, hstep, hlen, hinv⟩ := tryBody_total l i j
    obtain ⟨l3, hrest, hlen2, hinv2⟩ := ih i l2 (j + 1)
    rcases hstep with h | h
    · exact ⟨l3, by rw [innerLoop, h]; exact hrest,
        le_trans hlen2 hlen, fun hh => hinv2 (hinv hh)⟩
    · exact ⟨l3, by rw [innerLoop, h]; exact hrest,
        le_trans hlen2 hlen, fun hh => hinv2 (hinv hh)⟩

/-- The outer loop always completes normally, never grows the list, and
preserves the radius invariant. -/
lemma outerLoop_total (fuel : ℕ) : ∀ (l : List Gravpoint) (i : ℕ),
    ∃ l2, outerLoop l i fuel = .ok l2 ∧ l2.length ≤ l.length ∧
      ((∀ p ∈ l, radiusInv p) → ∀ p ∈ l2, radiusInv p) := by
  induction fuel with
  | zero => exact fun l i => ⟨l, rfl, le_refl _, fun h => h⟩
  | succ n ih =>
    intro l i
    obtain ⟨l2, hstep, hlen, hinv⟩ :=
      innerLoop_total (l.length - (i + 1)) i l (i + 1)
    obtain ⟨l3, hrest, hlen2, hinv2⟩ := ih l2 (i + 1)
    exact ⟨l3, by rw [outerLoop, hstep]; exact hrest,
      le_trans hlen2 hlen, fun hh => hinv2 (hinv hh)⟩

/-- The merge pass always returns a list: no exception escapes. -/
lemma mergeDetect_total (l : List Gravpoint) :
    ∃ l2, mergeDetect l = .ok l2 ∧ l2.length ≤ l.length ∧
      ((∀ p ∈ l, radiusInv p) → ∀ p ∈ l2, radiusInv p) := by
  unfold mergeDetect
  exact outerLoop_total l.length l 0

/-- Claim C9: the merge-detection pass never propagates an exception —
every IndexError raised by stale indexing after a removal is caught and
the pair skipped — and the surviving collection is a genuine body list
no longer than the input. -/
theorem C9_merge_detect_never_raises (l : List Gravpoint) :
    ∃ l2, mergeDetect l = Except.ok l2 ∧ l2.length ≤ l.length := by
  obtain ⟨l2, hok, hlen, _⟩ := mergeDetect_total l
  exact ⟨l2, hok, hlen⟩

/-- The gravity pass preserves the radius invariant of every body: it
only ever calls `update`, which touches the velocity alone. -/
lemma gravityApply_inv (l : List Gravpoint) (h : ∀ p ∈ l, radiusInv p) :
    ∀ p ∈ gravityApply l, radiusInv p := by
  intro p hp
  unfold gravityApply at hp
  rw [List.mem_map] at hp
  obtain ⟨q, hq, rfl⟩ := hp
  have hsnd : q.2 ∈ l := by
    have := List.mem_map_of_mem Prod.snd hq
    rwa [List.enum_map_snd] at this
  exact radiusInv_update _ _ (h q.2 hsnd)

/-- Claim C8: bodies are built with `radius = floor(mass^(1/3))` at
construction, a merge rebuilds the merged body through the constructor,
and neither the force pass nor the move pass touches mass or radius, so
one full tick maps a collection satisfying the radius invariant to a
collection satisfying it. -/
theorem C8_radius_invariant :
    (∀ (p : Vec3) (m : ℝ) (v : Vec3) (b : Bool) (c : Color),
      radiusInv (mkGravpoint p m v b c)) ∧
    (∀ l, (∀ p ∈ l, radiusInv p) → ∀ l2, updateall l = Except.ok l2 →
      ∀ p ∈ l2, radiusInv p) := by
  refine ⟨fun p m v b c => radiusInv_mk p m v b c, ?_⟩
  intro l h l2 heq
  unfold updateall at heq
  obtain ⟨lm, hok, _, hinv⟩ := mergeDetect_total l
  rw [hok] at heq
  have hl2 : l2 = (gravityApply lm).map move := (Except.ok.inj heq).symm
  rw [hl2]
  intro p hp
  rw [List.mem_map] at hp
  obtain ⟨q, hq, rfl⟩ := hp
  exact radiusInv_move q (gravityApply_inv lm (hinv h) q hq)

/-- A movable test body of mass 7. -/
def c8Body : Gravpoint := mkGravpoint ⟨1, 2, 3⟩ 7 ⟨4, 5, 6⟩ false whiteCol

/-- The image of `c8Body` under one tick in a singleton world: the merge
pass finds no pair, the force pass applies the empty-sum force, and the
move pass advances the position. -/
def c8Result : Gravpoint := move (update c8Body zeroVec)

lemma updateall_c8 : updateall [c8Body] = Except.ok [c8Result] := by
  have hmerge : mergeDetect [c8Body] = Except.ok [c8Body] := rfl
  unfold updateall
  rw [hmerge]
  show Except.ok (List.map move (gravityApply [c8Body])) = Except.ok [c8Result]
  have hforce : gravityForce [c8Body] 0 c8Body = zeroVec := rfl
  have : gravityApply [c8Body] = [update c8Body zeroVec] := by
    unfold gravityApply
    rw [show ([c8Body] : List Gravpoint).enum = [(0, c8Body)] from rfl]
    rw [List.map_singleton, hforce]
  rw [this, List.map_singleton]
  rfl

/-- Witness for C8 at a concrete singleton world. -/
theorem C8_radius_invariant_witness :
    updateall [c8Body] = Except.ok [c8Result] ∧ radiusInv c8Body ∧
    radiusInv c8Result := by
  have hin : ∀ p ∈ [c8Body], radiusInv p := by
    intro p hp
    rw [List.mem_singleton] at hp
    rw [hp]
    exact radiusInv_mk _ _ _ _ _
  refine ⟨updateall_c8, hin c8Body (List.mem_singleton.mpr rfl), ?_⟩
  exact C8_radius_invariant.2 [c8Body] hin [c8Result] updateall_c8
    c8Result (List.mem_singleton.mpr rfl)

/-
  Concrete evaluation machinery for the mass-conservation claim.
-/

/-- Evaluation of the cube-root floor: `radiusOf m = n` once `m` lies in
`[n^3, (n+1)^3)`. -/
lemma cuberoot_floor (m : ℝ) (n : ℕ) (h0 : 0 ≤ m)
    (h1 : ((n : ℝ)) ^ 3 ≤ m) (h2 : m < ((n : ℝ) + 1) ^ 3) :
    radiusOf m = n := by
  have key : ∀ x : ℝ, 0 ≤ x → (x ^ (3 : ℕ)) ^ ((1 : ℝ) / 3) = x := by
    intro x hx
    rw [← Real.rpow_natCast x 3, ← Real.rpow_mul hx]
    rw [show ((3 : ℕ) : ℝ) * ((1 : ℝ) / 3) = 1 by norm_num, Real.rpow_one]
  unfold radiusOf
  rw [Int.floor_eq_iff]
  constructor
  · have hle := Real.rpow_le_rpow (by positivity) h1
      (by norm_num : (0 : ℝ) ≤ 1 / 3)
    rw [key (n : ℝ) (Nat.cast_nonneg n)] at hle
    push_cast
    exact hle
  · have hlt := Real.rpow_lt_rpow h0 h2
      (by norm_num : (0 : ℝ) < 1 / 3)
    rw [key ((n : ℝ) + 1) (by positivity)] at hlt
    push_cast
    exact hlt

lemma radiusOf_100 : radiusOf 100 = 4 := by
  have := cuberoot_floor 100 4 (by norm_num) (by norm_num) (by norm_num)
  simpa using this

lemma radiusOf_200 : radiusOf 200 = 5 := by
  have := cuberoot_floor 200 5 (by norm_num) (by norm_num) (by norm_num)
  simpa using this

/-- Evaluation of `distance` at a perfect square. -/
lemma distance_eval (p q : Vec3) (r : ℝ) (hr : 0 ≤ r)
    (h : (p.x - q.x) ^ 2 + (p.y - q.y) ^ 2 + (p.z - q.z) ^ 2 = r ^ 2) :
    distance p q = r := by
  unfold distance
  rw [h]
  exact Real.sqrt_sq hr

/-- Body A of the mass-conservation counterexample: mass 100 at
`(0,50,0)`, at rest. -/
def c10A : Gravpoint := mkGravpoint ⟨0, 50, 0⟩ 100 ⟨0, 0, 0⟩ false whiteCol

/-- Body B: mass 200 at `(0,-46,0)`, at rest. -/
def c10B : Gravpoint := mkGravpoint ⟨0, -46, 0⟩ 200 ⟨0, 0, 0⟩ false whiteCol

/-- Body C: mass 100 at `(0,-50,0)`, at rest; under the source equality
it compares equal to the distant body A (same mass, same numpy
truthiness of position and velocity). -/
def c10C : Gravpoint := mkGravpoint ⟨0, -50, 0⟩ 100 ⟨0, 0, 0⟩ false whiteCol

/-- The three-body world in which the merge pass removes the wrong
body. -/
def c10List : List Gravpoint := [c10A, c10B, c10C]

/-- The merged body built from B and C when they collide. -/
def c10Merged : Gravpoint := gpadd c10B c10C

lemma c10_dAB : distance c10A.pos c10B.pos = 96 := by
  apply distance_eval _ _ 96 (by norm_num)
  simp only [c10A, c10B, mkGravpoint_pos]
  norm_num

lemma c10_dAC : distance c10A.pos c10C.pos = 100 := by
  apply distance_eval _ _ 100 (by norm_num)
  simp only [c10A, c10C, mkGravpoint_pos]
  norm_num

lemma c10_dBC : distance c10B.pos c10C.pos = 4 := by
  apply distance_eval _ _ 4 (by norm_num)
  simp only [c10B, c10C, mkGravpoint_pos]
  norm_num

/-- The source equality identifies the distant body A with body C: both
positions have a zero component (so the same numpy truthiness), both
velocities are zero, and the masses are both 100. -/
lemma c10_gpEq_AC : gpEq c10A c10C := by
  refine ⟨?_, Iff.rfl, rfl⟩
  simp only [c10A, c10C, mkGravpoint_pos]
  constructor
  · rintro ⟨h, -, -⟩; exact absurd rfl h
  · rintro ⟨h, -, -⟩; exact absurd rfl h

/-- `gpoints.remove(gpoints[2])` on the three-body world removes body A,
the FIRST element comparing equal to body C. -/
lemma c10_pyRemove : pyRemove c10List c10C = .ok [c10B, c10C] := by
  unfold pyRemove c10List
  rw [if_pos]
  · simp only [List.eraseP_cons, decide_eq_true c10_gpEq_AC, cond_true]
  · rw [List.any_eq_true]
    exact ⟨c10A, by simp, decide_eq_true c10_gpEq_AC⟩

lemma c10_try01 : tryBody c10List 0 1 = .ok c10List := by
  unfold tryBody c10List
  simp only [List.getElem?_cons_zero, List.getElem?_cons_succ]
  rw [if_neg]
  rw [c10_dAB]
  simp only [c10A, c10B, mkGravpoint_radius, radiusOf_100, radiusOf_200]
  norm_num

lemma c10_try02 : tryBody c10List 0 2 = .ok c10List := by
  unfold tryBody c10List
  simp only [List.getElem?_cons_zero, List.getElem?_cons_succ]
  rw [if_neg]
  rw [c10_dAC]
  simp only [c10A, c10C, mkGravpoint_radius, radiusOf_100]
  norm_num

lemma c10_try12 : tryBody c10List 1 2 = .ok [c10B, c10Merged] := by
  unfold tryBody
  rw [show c10List[1]? = some c10B from rfl, show c10List[2]? = some c10C from rfl]
  simp only
  rw [if_pos, if_neg (by norm_num : ¬ (1 : ℕ) > 2)]
  · rw [c10_pyRemove]
    simp only
    rw [if_pos (by norm_num : (1 : ℕ) < ([c10B, c10C] : List Gravpoint).length)]
    rfl
  · rw [c10_dBC]
    simp only [c10B, c10C, mkGravpoint_radius, radiusOf_100, radiusOf_200]
    norm_num

lemma innerLoop_succ_ok {i : ℕ} {l l2 : List Gravpoint} {j fuel : ℕ}
    (h : tryBody l i j = .ok l2) :
    innerLoop i l j (fuel + 1) = innerLoop i l2 (j + 1) fuel := by
  show (match tryBody l i j with
    | .ok l3 => innerLoop i l3 (j + 1) fuel
    | .error (.indexError, l3) => innerLoop i l3 (j + 1) fuel
    | .error (.valueError, l3) => .error (.valueError, l3)) = _
  rw [h]

lemma outerLoop_succ_ok {l l2 : List Gravpoint} {i fuel : ℕ}
    (h : innerLoop i l (i + 1) (l.length - (i + 1)) = .ok l2) :
    outerLoop l i (fuel + 1) = outerLoop l2 (i + 1) fuel := by
  show (match innerLoop i l (i + 1) (l.length - (i + 1)) with
    | .ok l3 => outerLoop l3 (i + 1) fuel
    | .error e => .error e) = _
  rw [h]

/-- The full trace of the merge pass on the three-body world: the only
colliding pair is (B, C) at indices 1 and 2; the removal deletes body A
instead of body C, and the merged body overwrites the slot that now
holds C, leaving `[B, merge(B,C)]`. -/
lemma c10_mergeDetect : mergeDetect c10List = .ok [c10B, c10Merged] := by
  have e1 : innerLoop 0 c10List 1 2 = Except.ok c10List := by
    show innerLoop 0 c10List 1 (1 + 1) = Except.ok c10List
    rw [innerLoop_succ_ok c10_try01]
    show innerLoop 0 c10List 2 (0 + 1) = Except.ok c10List
    rw [innerLoop_succ_ok c10_try02]
    rfl
  have e2 : innerLoop 1 c10List 2 1 = Except.ok [c10B, c10Merged] := by
    show innerLoop 1 c10List 2 (0 + 1) = Except.ok [c10B, c10Merged]
    rw [innerLoop_succ_ok c10_try12]
    rfl
  unfold mergeDetect
  show outerLoop c10List 0 (2 + 1) = Except.ok [c10B, c10Merged]
  rw [outerLoop_succ_ok e1]
  show outerLoop c10List 1 (1 + 1) = Except.ok [c10B, c10Merged]
  rw [outerLoop_succ_ok e2]
  show outerLoop [c10B, c10Merged] 2 (0 + 1) = Except.ok [c10B, c10Merged]
  rw [outerLoop_succ_ok (rfl : innerLoop 2 [c10B, c10Merged] 3 0 = .ok _)]
  rfl

/-- The force pass leaves every mass unchanged. -/
lemma gravityApply_mass_map (l : List Gravpoint) :
    (gravityApply l).map Gravpoint.mass = l.map Gravpoint.mass := by
  unfold gravityApply
  rw [List.map_map]
  have hfun : (Gravpoint.mass ∘ fun q : ℕ × Gravpoint =>
      update q.2 (gravityForce l q.1 q.2)) = Gravpoint.mass ∘ Prod.snd := by
    funext q
    rfl
  rw [hfun, ← List.map_map, List.enum_map_snd]

/-- The move pass leaves every mass unchanged. -/
lemma map_move_mass_map (l : List Gravpoint) :
    (l.map move).map Gravpoint.mass = l.map Gravpoint.mass := by
  rw [List.map_map]
  have hfun : Gravpoint.mass ∘ move = Gravpoint.mass := funext move_mass
  rw [hfun]

/-- Claim C10 fails: in the all-positive-mass world `c10List` (total
mass 400) the tick produces a world of total mass 500 — the merge of B
and C removes body A (the first body equal to C under the source
equality) and then overwrites the slot now holding C, so B survives
alongside merge(B,C) and the mass of B is counted twice while the mass
of A is lost. -/
theorem C10_tick_mass_not_conserved :
    totalMass c10List = 400 ∧
    (0 < c10A.mass ∧ 0 < c10B.mass ∧ 0 < c10C.mass) ∧
    ∃ l2, updateall c10List = Except.ok l2 ∧ totalMass l2 = 500 := by
  refine ⟨?_, ?_, ?_⟩
  · simp only [totalMass, c10List, c10A, c10B, c10C, List.map_cons,
      List.map_nil, mkGravpoint_mass, List.sum_cons, List.sum_nil]
    norm_num
  · refine ⟨?_, ?_, ?_⟩ <;>
      simp only [c10A, c10B, c10C, mkGravpoint_mass] <;> norm_num
  · refine ⟨(gravityApply [c10B, c10Merged]).map move, ?_, ?_⟩
    · unfold updateall
      rw [c10_mergeDetect]
    · unfold totalMass
      rw [map_move_mass_map, gravityApply_mass_map]
      simp only [c10Merged, List.map_cons, List.map_nil, gpadd_mass,
        c10B, c10C, mkGravpoint_mass, List.sum_cons, List.sum_nil]
      norm_num

end

end NG
